import Mathlib

/-
Verification of the run-lifecycle and item-processing subsystem of the
target-shopping-automation repository.

The definitions below are a shallow embedding of:
  * src/src/run_manager.ts       (run record model, JSON-file store, lifecycle ops)
  * src/unnamed/part_006         (ShoppingList / ProductStatus)
  * src/unnamed/part_000         (processShoppingList item-processing loop)
  * src/unnamed/part_005         (processCheckout)
  * src/src/slack.ts             (notification shapes, modelled as trace events)

The JSON object `Record<string, RunData>` persisted in data/runs.json is
modelled as an insertion-ordered association list; `runs[id] = v` on an
existing key replaces the binding in place, otherwise appends, matching
JavaScript object semantics.  External effects (Slack notifications and the
`stagehand.close()` release of the browser resource) are modelled as an
event trace.
-/

set_option autoImplicit false

/-- The `RunState` union type of src/src/run_manager.ts. -/
inductive RunState where
  | pending
  | running
  | cart_ready
  | checkout_started
  | checkout_complete
  | checkout_failed
  | processing_failed
deriving DecidableEq

/-- The `ShoppingItem` record type of src/src/run_manager.ts. -/
structure ShoppingItem where
  name : String
  quantity : Nat
  url : Option String
deriving DecidableEq

/-- The `RunData` record type of src/src/run_manager.ts. -/
structure RunData where
  id : String
  items : List ShoppingItem
  status : RunState
  timestamp : Nat
  sessionId : Option String
  successCount : Nat
  failureCount : Nat
  failureReasons : List String
deriving DecidableEq

/-- The persisted collection `Record<string, RunData>`: an insertion-ordered
key-value object. -/
abbrev Store := List (String × RunData)

/-- Key lookup in a JavaScript object (`runs[runId]`). -/
def lookupRun : Store → String → Option RunData
  | [], _ => none
  | (k, v) :: rest, runId => if k = runId then some v else lookupRun rest runId

/-- In-place replacement of the binding for an existing key: models mutating
the record object held in `runs[runId]` and then writing the whole map back. -/
def setRun : Store → String → RunData → Store
  | [], _, _ => []
  | (k, v) :: rest, runId, r =>
      if k = runId then (k, r) :: rest else (k, v) :: setRun rest runId r

/-- JavaScript object assignment `runs[runId] = r`: replaces the binding when
the key exists, otherwise appends a new binding. -/
def objSet : Store → String → RunData → Store
  | [], runId, r => [(runId, r)]
  | (k, v) :: rest, runId, r =>
      if k = runId then (k, r) :: rest else (k, v) :: objSet rest runId r

/-- `getRun` of src/src/run_manager.ts: `runs[runId] || null`. -/
def getRun (s : Store) (runId : String) : Option RunData :=
  lookupRun s runId

/-- Run id format of `createRun`:
`run_${Date.now().toString(36)}_${Math.random().toString(36).substring(2, 7)}`.
The two nondeterministic draws (clock string and random suffix) are inputs. -/
def mkRunId (nowStr rand : String) : String :=
  "run_" ++ nowStr ++ "_" ++ rand

/-- The record freshly created by `createRun`. -/
def freshRun (runId : String) (items : List ShoppingItem) (now : Nat) : RunData :=
  { id := runId
    items := items
    status := RunState.pending
    timestamp := now
    sessionId := none
    successCount := 0
    failureCount := 0
    failureReasons := [] }

/-- `createRun` of src/src/run_manager.ts.  Reads the state, generates an id
from the clock and a random draw, stores a fresh record under that id and
returns the id.  There is no validation of `items`. -/
def createRun (s : Store) (items : List ShoppingItem) (nowStr rand : String)
    (now : Nat) : Store × String :=
  let runId := mkRunId nowStr rand
  (objSet s runId (freshRun runId items now), runId)

/-- `updateRunStatus` of src/src/run_manager.ts: returns `false` when the id
is unknown, otherwise overwrites the status field and returns `true`. -/
def updateRunStatus (s : Store) (runId : String) (status : RunState) :
    Store × Bool :=
  match lookupRun s runId with
  | none => (s, false)
  | some run => (setRun s runId { run with status := status }, true)

/-- `updateRunSessionId` of src/src/run_manager.ts. -/
def updateRunSessionId (s : Store) (runId sessionId : String) : Store × Bool :=
  match lookupRun s runId with
  | none => (s, false)
  | some run => (setRun s runId { run with sessionId := some sessionId }, true)

/-- `recordItemSuccess` of src/src/run_manager.ts: increments `successCount`
when the run exists, otherwise does nothing. -/
def recordItemSuccess (s : Store) (runId : String) : Store :=
  match lookupRun s runId with
  | none => s
  | some run => setRun s runId { run with successCount := run.successCount + 1 }

/-- `recordItemFailure` of src/src/run_manager.ts: increments `failureCount`
and appends the reason when it is non-empty (JavaScript truthiness of
`if (reason)`); does nothing when the run is unknown. -/
def recordItemFailure (s : Store) (runId : String) (reason : String) : Store :=
  match lookupRun s runId with
  | none => s
  | some run =>
      setRun s runId
        { run with
          failureCount := run.failureCount + 1
          failureReasons :=
            if reason = "" then run.failureReasons
            else run.failureReasons ++ [reason] }

/-- The state of the backing file data/runs.json as seen by `readState`. -/
inductive FileState where
  | absent
  | present (data : String)

/-- `readState` of src/src/run_manager.ts.  `parse` models `JSON.parse`
composed with the `|| {}` null-guard: `none` covers both a parse exception
(caught) and a parse result that is not a usable object. -/
def readState (parse : String → Option Store) : FileState → Store
  | FileState.absent => []
  | FileState.present data =>
      if data.trim = "" then [] else (parse data).getD []

-- Basic store lemmas ---------------------------------------------------------

theorem lookupRun_setRun_self (runId : String) (r : RunData) :
    ∀ (s : Store) (r0 : RunData), lookupRun s runId = some r0 →
      lookupRun (setRun s runId r) runId = some r := by
  intro s
  induction s with
  | nil => intro r0 h; simp [lookupRun] at h
  | cons p rest ih =>
      intro r0 h
      obtain ⟨k, v⟩ := p
      by_cases hk : k = runId
      · subst hk; simp [lookupRun, setRun]
      · simp [lookupRun, setRun, hk] at h ⊢
        exact ih r0 h

theorem lookupRun_setRun_other (runId other : String) (r : RunData)
    (hne : other ≠ runId) :
    ∀ s : Store, lookupRun (setRun s runId r) other = lookupRun s other := by
  intro s
  induction s with
  | nil => simp [setRun]
  | cons p rest ih =>
      obtain ⟨k, v⟩ := p
      by_cases hk : k = runId
      · subst hk
        have hko : ¬ k = other := fun h => hne (h.symm)
        simp [setRun, lookupRun, hko]
      · by_cases hko : k = other
        · simp [setRun, lookupRun, hk, hko, hne]
        · simp [setRun, lookupRun, hk, hko, ih]

theorem lookupRun_objSet_self (runId : String) (r : RunData) :
    ∀ s : Store, lookupRun (objSet s runId r) runId = some r := by
  intro s
  induction s with
  | nil => simp [objSet, lookupRun]
  | cons p rest ih =>
      obtain ⟨k, v⟩ := p
      by_cases hk : k = runId
      · subst hk; simp [objSet, lookupRun]
      · simp [objSet, lookupRun, hk]
        exact ih

theorem lookupRun_objSet_other (runId other : String) (r : RunData)
    (hne : other ≠ runId) :
    ∀ s : Store, lookupRun (objSet s runId r) other = lookupRun s other := by
  intro s
  induction s with
  | nil =>
      have hro : ¬ runId = other := fun h => hne h.symm
      simp [objSet, lookupRun, hro]
  | cons p rest ih =>
      obtain ⟨k, v⟩ := p
      by_cases hk : k = runId
      · subst hk
        have hko : ¬ k = other := fun h => hne h.symm
        simp [objSet, lookupRun, hko]
      · by_cases hko : k = other
        · simp [objSet, lookupRun, hk, hko, hne]
        · simp [objSet, lookupRun, hk, hko, ih]

theorem lookupRun_none_of_no_key (runId : String) :
    ∀ s : Store, (∀ p ∈ s, p.1 ≠ runId) → lookupRun s runId = none := by
  intro s
  induction s with
  | nil => intro _; rfl
  | cons p rest ih =>
      intro h
      obtain ⟨k, v⟩ := p
      have hk : k ≠ runId := h (k, v) (List.mem_cons_self _ _)
      simp [lookupRun, hk]
      exact ih fun q hq => h q (List.mem_cons_of_mem _ hq)

-- Per-operation behaviour on a present run ----------------------------------

theorem getRun_updateRunStatus_found (s : Store) (runId : String) (r : RunData)
    (st : RunState) (h : getRun s runId = some r) :
    updateRunStatus s runId st = (setRun s runId { r with status := st }, true) ∧
    getRun (updateRunStatus s runId st).1 runId = some { r with status := st } := by
  have h1 : lookupRun s runId = some r := h
  constructor
  · simp [updateRunStatus, h1]
  · simp [updateRunStatus, h1, getRun]
    exact lookupRun_setRun_self runId _ s r h1

theorem getRun_updateRunSessionId_found (s : Store) (runId sid : String)
    (r : RunData) (h : getRun s runId = some r) :
    updateRunSessionId s runId sid =
      (setRun s runId { r with sessionId := some sid }, true) ∧
    getRun (updateRunSessionId s runId sid).1 runId =
      some { r with sessionId := some sid } := by
  have h1 : lookupRun s runId = some r := h
  constructor
  · simp [updateRunSessionId, h1]
  · simp [updateRunSessionId, h1, getRun]
    exact lookupRun_setRun_self runId _ s r h1

theorem getRun_recordItemSuccess_found (s : Store) (runId : String) (r : RunData)
    (h : getRun s runId = some r) :
    recordItemSuccess s runId =
      setRun s runId { r with successCount := r.successCount + 1 } ∧
    getRun (recordItemSuccess s runId) runId =
      some { r with successCount := r.successCount + 1 } := by
  have h1 : lookupRun s runId = some r := h
  constructor
  · simp [recordItemSuccess, h1]
  · simp [recordItemSuccess, h1, getRun]
    exact lookupRun_setRun_self runId _ s r h1

theorem getRun_recordItemFailure_found (s : Store) (runId reason : String)
    (r : RunData) (h : getRun s runId = some r) :
    recordItemFailure s runId reason =
      setRun s runId
        { r with
          failureCount := r.failureCount + 1
          failureReasons :=
            if reason = "" then r.failureReasons
            else r.failureReasons ++ [reason] } ∧
    getRun (recordItemFailure s runId reason) runId =
      some { r with
             failureCount := r.failureCount + 1
             failureReasons :=
               if reason = "" then r.failureReasons
               else r.failureReasons ++ [reason] } := by
  have h1 : lookupRun s runId = some r := h
  constructor
  · simp [recordItemFailure, h1]
  · simp [recordItemFailure, h1, getRun]
    exact lookupRun_setRun_self runId _ s r h1

-- Shopping list model (src/unnamed/part_006) ---------------------------------

/-- The `ProductStatus` enum of the shopping-list module. -/
inductive ProductStatus where
  | PENDING
  | ADDED
  | NOT_FOUND
  | ERROR
  | OUT_OF_STOCK
deriving DecidableEq

/-- An entry of the in-memory `ShoppingList` (the module's own `ShoppingItem`
shape; named `SLItem` here to keep it apart from the persisted record's
`ShoppingItem`). -/
structure SLItem where
  name : String
  quantity : Nat
  status : ProductStatus
  notes : Option String
deriving DecidableEq

/-- `ShoppingList.updateStatus` applied to one entry: the status is always
overwritten, the notes only when the new notes string is truthy. -/
def slUpdateOne (item : SLItem) (status : ProductStatus)
    (notes : Option String) : SLItem :=
  { item with
    status := status
    notes :=
      match notes with
      | some n => if n = "" then item.notes else some n
      | none => item.notes }

/-- `ShoppingList.getSummary`: total / added / failed / pending counts. -/
structure Summary where
  total : Nat
  added : Nat
  failed : Nat
  pending : Nat
deriving DecidableEq

/-- A status counted by `getProblematicItems`. -/
def isFailedStatus (st : ProductStatus) : Bool :=
  st = ProductStatus.NOT_FOUND || st = ProductStatus.ERROR ||
    st = ProductStatus.OUT_OF_STOCK

def getSummary (l : List SLItem) : Summary :=
  { total := l.length
    added := l.countP (fun it => it.status = ProductStatus.ADDED)
    failed := l.countP (fun it => isFailedStatus it.status)
    pending := l.countP (fun it => it.status = ProductStatus.PENDING) }

/-- Every item status is added, failed or pending, so the three summary
counts partition the list. -/
theorem getSummary_partition (l : List SLItem) :
    (getSummary l).added + (getSummary l).failed + (getSummary l).pending =
      (getSummary l).total := by
  induction l with
  | nil => rfl
  | cons it rest ih =>
      simp only [getSummary, List.countP_cons, List.length_cons,
        isFailedStatus] at ih ⊢
      cases h : it.status <;> simp [h] <;> omega

-- Item-processing loop (src/unnamed/part_000, processShoppingList) -----------

/-- The notifications of src/src/slack.ts, by payload. -/
inductive Notification where
  | runStarted (runId : String) (itemCount : Nat)
  | itemAdded (runId itemName : String) (itemIndex totalItems : Nat)
  | itemFailed (runId itemName reason : String)
  | cartReady (runId : String) (addedCount totalCount : Nat)
  | errorMsg (runId message : String)
  | checkoutComplete (runId : String)
  | checkoutFailed (runId reason : String)
  | slackMessage (message : String)
deriving DecidableEq

/-- Observable external effects of a task: a notification, or the release of
the browser resource (`stagehand.close()`). -/
inductive Event where
  | notif (n : Notification)
  | close
deriving DecidableEq

/-- Behaviour of one `searchAndAddToCart` call: either a `{status, message}`
result, or a thrown exception that escapes the per-item handling. -/
inductive ItemOutcome where
  | result (status : ProductStatus) (message : Option String)
  | exn (message : String)
deriving DecidableEq

/-- `result.message || 'Unknown error'` (JavaScript truthiness). -/
def msgOr (m : Option String) : String :=
  match m with
  | some st => if st = "" then "Unknown error" else st
  | none => "Unknown error"

/-- The per-item `for` loop of `processShoppingList` (src/unnamed/part_000,
lines 108-124).  The items are walked in order; a non-pending item is
skipped; otherwise the automation outcome at that position is applied to the
list, the run counters are updated, and a per-item notification is recorded.
A thrown outcome aborts the loop, leaving the remaining items untouched.
Returns the final list, store, event trace and the escaped exception. -/
def runItems (runId : String) (totalItems : Nat) :
    List SLItem → List ItemOutcome → Nat → Store →
    List SLItem × Store × List Event × Option String
  | [], _, _, s => ([], s, [], none)
  | item :: rest, outs, i, s =>
      if item.status = ProductStatus.PENDING then
        match outs.headD (ItemOutcome.exn "automation unavailable") with
        | ItemOutcome.exn msg => (item :: rest, s, [], some msg)
        | ItemOutcome.result st m =>
            let item' := slUpdateOne item st m
            let step :=
              if st = ProductStatus.ADDED then
                (recordItemSuccess s runId,
                 Event.notif (Notification.itemAdded runId item.name (i + 1)
                   totalItems))
              else
                (recordItemFailure s runId (msgOr m),
                 Event.notif (Notification.itemFailed runId item.name (msgOr m)))
            let res := runItems runId totalItems rest outs.tail (i + 1) step.1
            (item' :: res.1, res.2.1, step.2 :: res.2.2.1, res.2.2.2)
      else
        let res := runItems runId totalItems rest outs.tail (i + 1) s
        (item :: res.1, res.2.1, res.2.2.1, res.2.2.2)

/-- `processShoppingList` of src/unnamed/part_000 from the point where the
run exists and the browser resource has been acquired: the start
notification, the try-block walking the items, then either the normal
completion path (`cart_ready` + completion notification) or the catch path
(`processing_failed` + error notification), and in both cases the `finally`
release of the resource. -/
def processShoppingList (runId : String) (items0 : List SLItem)
    (outs : List ItemOutcome) (s0 : Store) : Store × List SLItem × List Event :=
  let startEvs := [Event.notif (Notification.runStarted runId items0.length)]
  let res := runItems runId items0.length items0 outs 0 s0
  match res.2.2.2 with
  | none =>
      let summ := getSummary res.1
      let s2 := (updateRunStatus res.2.1 runId RunState.cart_ready).1
      (s2, res.1,
        startEvs ++ res.2.2.1 ++
          [Event.notif (Notification.cartReady runId summ.added summ.total),
           Event.close])
  | some msg =>
      let s2 := (updateRunStatus res.2.1 runId RunState.processing_failed).1
      (s2, res.1,
        startEvs ++ res.2.2.1 ++
          [Event.notif (Notification.errorMsg runId
             ("Processing error: " ++ msg)),
           Event.close])

/-- An event that records the processing of a single item. -/
def isItemEvent : Event → Bool
  | Event.notif (Notification.itemAdded _ _ _ _) => true
  | Event.notif (Notification.itemFailed _ _ _) => true
  | _ => false

-- Step equations for the item loop ------------------------------------------

theorem runItems_cons_added (runId : String) (totalItems : Nat) (item : SLItem)
    (rest : List SLItem) (m : Option String) (outs : List ItemOutcome)
    (i : Nat) (s : Store) (hp : item.status = ProductStatus.PENDING) :
    runItems runId totalItems (item :: rest)
        (ItemOutcome.result ProductStatus.ADDED m :: outs) i s =
      (slUpdateOne item ProductStatus.ADDED m ::
         (runItems runId totalItems rest outs (i + 1)
            (recordItemSuccess s runId)).1,
       (runItems runId totalItems rest outs (i + 1)
          (recordItemSuccess s runId)).2.1,
       Event.notif (Notification.itemAdded runId item.name (i + 1) totalItems) ::
         (runItems runId totalItems rest outs (i + 1)
            (recordItemSuccess s runId)).2.2.1,
       (runItems runId totalItems rest outs (i + 1)
          (recordItemSuccess s runId)).2.2.2) := by
  simp [runItems, hp]

theorem runItems_cons_failed (runId : String) (totalItems : Nat) (item : SLItem)
    (rest : List SLItem) (st : ProductStatus) (m : Option String)
    (outs : List ItemOutcome) (i : Nat) (s : Store)
    (hp : item.status = ProductStatus.PENDING)
    (hna : ¬ st = ProductStatus.ADDED) :
    runItems runId totalItems (item :: rest)
        (ItemOutcome.result st m :: outs) i s =
      (slUpdateOne item st m ::
         (runItems runId totalItems rest outs (i + 1)
            (recordItemFailure s runId (msgOr m))).1,
       (runItems runId totalItems rest outs (i + 1)
          (recordItemFailure s runId (msgOr m))).2.1,
       Event.notif (Notification.itemFailed runId item.name (msgOr m)) ::
         (runItems runId totalItems rest outs (i + 1)
            (recordItemFailure s runId (msgOr m))).2.2.1,
       (runItems runId totalItems rest outs (i + 1)
          (recordItemFailure s runId (msgOr m))).2.2.2) := by
  simp [runItems, hp, hna]

theorem runItems_cons_exn (runId : String) (totalItems : Nat) (item : SLItem)
    (rest : List SLItem) (msg : String) (outs : List ItemOutcome) (i : Nat)
    (s : Store) (hp : item.status = ProductStatus.PENDING) :
    runItems runId totalItems (item :: rest) (ItemOutcome.exn msg :: outs) i s =
      (item :: rest, s, [], some msg) := by
  simp [runItems, hp]

theorem runItems_cons_skip (runId : String) (totalItems : Nat) (item : SLItem)
    (rest : List SLItem) (outs : List ItemOutcome) (i : Nat) (s : Store)
    (hp : ¬ item.status = ProductStatus.PENDING) :
    runItems runId totalItems (item :: rest) outs i s =
      (item :: (runItems runId totalItems rest outs.tail (i + 1) s).1,
       (runItems runId totalItems rest outs.tail (i + 1) s).2.1,
       (runItems runId totalItems rest outs.tail (i + 1) s).2.2.1,
       (runItems runId totalItems rest outs.tail (i + 1) s).2.2.2) := by
  simp [runItems, hp]

/-- When the run exists, every item is pending and every automation call
returns a result (no exception), the loop walks the whole list: it returns
no escaped exception, marks every item with a non-pending status, emits one
per-item notification per item, and increments the run's counters by the
number of added resp. failed items while touching neither its status nor
its item snapshot. -/
theorem runItems_results (runId : String) (totalItems : Nat) :
    ∀ (l : List SLItem) (outs : List ItemOutcome) (i : Nat) (s : Store)
      (r : RunData),
    (∀ it ∈ l, it.status = ProductStatus.PENDING) →
    outs.length = l.length →
    (∀ o ∈ outs, ∃ st m, o = ItemOutcome.result st m ∧
        st ≠ ProductStatus.PENDING) →
    getRun s runId = some r →
    ∃ l2 s2 evs r2,
      runItems runId totalItems l outs i s = (l2, s2, evs, none) ∧
      getRun s2 runId = some r2 ∧
      r2.status = r.status ∧
      r2.items = r.items ∧
      l2.length = l.length ∧
      (∀ it ∈ l2, it.status ≠ ProductStatus.PENDING) ∧
      (∀ e ∈ evs, isItemEvent e = true) ∧
      evs.length = l.length ∧
      r2.successCount = r.successCount + (getSummary l2).added ∧
      r2.failureCount = r.failureCount + (getSummary l2).failed := by
  intro l
  induction l with
  | nil =>
      intro outs i s r hpend hlen hres hrun
      exact ⟨[], s, [], r, rfl, hrun, rfl, rfl, rfl, by simp, by simp, rfl,
        by simp [getSummary], by simp [getSummary]⟩
  | cons item rest ih =>
      intro outs i s r hpend hlen hres hrun
      cases outs with
      | nil => simp at hlen
      | cons o outs' =>
          have hp : item.status = ProductStatus.PENDING :=
            hpend item (List.mem_cons_self _ _)
          obtain ⟨st, m, ho, hstp⟩ := hres o (List.mem_cons_self _ _)
          subst ho
          have hpend' : ∀ it ∈ rest, it.status = ProductStatus.PENDING :=
            fun it hit => hpend it (List.mem_cons_of_mem _ hit)
          have hlen' : outs'.length = rest.length := by
            simpa using hlen
          have hres' : ∀ o ∈ outs', ∃ st m, o = ItemOutcome.result st m ∧
              st ≠ ProductStatus.PENDING :=
            fun o hout => hres o (List.mem_cons_of_mem _ hout)
          by_cases hadd : st = ProductStatus.ADDED
          · subst hadd
            obtain ⟨-, hget1⟩ := getRun_recordItemSuccess_found s runId r hrun
            obtain ⟨l2, s2, evs, r2, heq, hget, hstat, hitems, hlen2, hnp,
              hie, helen, hsucc, hfail⟩ :=
              ih outs' (i + 1) (recordItemSuccess s runId) _ hpend' hlen'
                hres' hget1
            refine ⟨slUpdateOne item ProductStatus.ADDED m :: l2, s2,
              Event.notif (Notification.itemAdded runId item.name (i + 1)
                totalItems) :: evs, r2, ?_, hget, ?_, ?_, ?_, ?_, ?_, ?_, ?_,
              ?_⟩
            · rw [runItems_cons_added runId totalItems item rest m outs' i s hp]
              simp [heq]
            · rw [hstat]
            · rw [hitems]
            · simp [hlen2]
            · intro it hit
              rcases List.mem_cons.1 hit with h | h
              · subst h; simp [slUpdateOne]
              · exact hnp it h
            · intro e he
              rcases List.mem_cons.1 he with h | h
              · subst h; rfl
              · exact hie e h
            · simp [helen]
            · simp only [getSummary, List.countP_cons, slUpdateOne] at hsucc ⊢
              simp at hsucc ⊢
              omega
            · simp only [getSummary, List.countP_cons, slUpdateOne] at hfail ⊢
              simp [isFailedStatus] at hfail ⊢
              omega
          · have hfs : isFailedStatus st = true := by
              cases st
              · exact absurd rfl hstp
              · exact absurd rfl hadd
              · rfl
              · rfl
              · rfl
            obtain ⟨-, hget1⟩ :=
              getRun_recordItemFailure_found s runId (msgOr m) r hrun
            obtain ⟨l2, s2, evs, r2, heq, hget, hstat, hitems, hlen2, hnp,
              hie, helen, hsucc, hfail⟩ :=
              ih outs' (i + 1) (recordItemFailure s runId (msgOr m)) _ hpend'
                hlen' hres' hget1
            refine ⟨slUpdateOne item st m :: l2, s2,
              Event.notif (Notification.itemFailed runId item.name (msgOr m))
                :: evs, r2, ?_, hget, ?_, ?_, ?_, ?_, ?_, ?_, ?_, ?_⟩
            · rw [runItems_cons_failed runId totalItems item rest st m outs' i
                s hp hadd]
              simp [heq]
            · rw [hstat]
            · rw [hitems]
            · simp [hlen2]
            · intro it hit
              rcases List.mem_cons.1 hit with h | h
              · subst h; simp [slUpdateOne, hstp]
              · exact hnp it h
            · intro e he
              rcases List.mem_cons.1 he with h | h
              · subst h; rfl
              · exact hie e h
            · simp [helen]
            · simp only [getSummary, List.countP_cons, slUpdateOne] at hsucc ⊢
              simp [hadd] at hsucc ⊢
              omega
            · simp only [getSummary, List.countP_cons, slUpdateOne] at hfail ⊢
              simp [hfs] at hfail ⊢
              omega

/-- When the first escaped exception sits behind `pre` well-behaved results,
the loop stops right there: the remaining items keep their pending statuses,
exactly `pre.length` items were handled, and the store has seen only counter
updates (the run's status is untouched by the loop itself). -/
theorem runItems_exn (runId : String) (totalItems : Nat) :
    ∀ (pre : List ItemOutcome) (l : List SLItem) (post : List ItemOutcome)
      (msg : String) (i : Nat) (s : Store) (r : RunData),
    (∀ it ∈ l, it.status = ProductStatus.PENDING) →
    (∀ o ∈ pre, ∃ st m, o = ItemOutcome.result st m) →
    pre.length < l.length →
    getRun s runId = some r →
    ∃ l2 s2 evs r2,
      runItems runId totalItems l (pre ++ ItemOutcome.exn msg :: post) i s =
        (l2, s2, evs, some msg) ∧
      getRun s2 runId = some r2 ∧
      r2.status = r.status ∧
      r2.items = r.items ∧
      l2.length = l.length ∧
      l2.drop pre.length = l.drop pre.length ∧
      (∀ e ∈ evs, isItemEvent e = true) ∧
      evs.length = pre.length := by
  intro pre
  induction pre with
  | nil =>
      intro l post msg i s r hpend hpre hlt hrun
      cases l with
      | nil => simp at hlt
      | cons item rest =>
          have hp : item.status = ProductStatus.PENDING :=
            hpend item (List.mem_cons_self _ _)
          exact ⟨item :: rest, s, [], r,
            by rw [List.nil_append,
              runItems_cons_exn runId totalItems item rest msg post i s hp],
            hrun, rfl, rfl, rfl, rfl, by simp, rfl⟩
  | cons o pre' ih =>
      intro l post msg i s r hpend hpre hlt hrun
      cases l with
      | nil => simp at hlt
      | cons item rest =>
          have hp : item.status = ProductStatus.PENDING :=
            hpend item (List.mem_cons_self _ _)
          obtain ⟨st, m, ho⟩ := hpre o (List.mem_cons_self _ _)
          subst ho
          have hpend' : ∀ it ∈ rest, it.status = ProductStatus.PENDING :=
            fun it hit => hpend it (List.mem_cons_of_mem _ hit)
          have hpre' : ∀ o ∈ pre', ∃ st m, o = ItemOutcome.result st m :=
            fun o hout => hpre o (List.mem_cons_of_mem _ hout)
          have hlt' : pre'.length < rest.length := by
            simpa using hlt
          by_cases hadd : st = ProductStatus.ADDED
          · subst hadd
            obtain ⟨-, hget1⟩ := getRun_recordItemSuccess_found s runId r hrun
            obtain ⟨l2, s2, evs, r2, heq, hget, hstat, hitems, hlen2, hdrop,
              hie, helen⟩ :=
              ih rest post msg (i + 1) (recordItemSuccess s runId) _ hpend'
                hpre' hlt' hget1
            refine ⟨slUpdateOne item ProductStatus.ADDED m :: l2, s2,
              Event.notif (Notification.itemAdded runId item.name (i + 1)
                totalItems) :: evs, r2, ?_, hget, ?_, ?_, ?_, ?_, ?_, ?_⟩
            · rw [List.cons_append,
                runItems_cons_added runId totalItems item rest m
                  (pre' ++ ItemOutcome.exn msg :: post) i s hp]
              simp [heq]
            · rw [hstat]
            · rw [hitems]
            · simp [hlen2]
            · simpa using hdrop
            · intro e he
              rcases List.mem_cons.1 he with h | h
              · subst h; rfl
              · exact hie e h
            · simp [helen]
          · obtain ⟨-, hget1⟩ :=
              getRun_recordItemFailure_found s runId (msgOr m) r hrun
            obtain ⟨l2, s2, evs, r2, heq, hget, hstat, hitems, hlen2, hdrop,
              hie, helen⟩ :=
              ih rest post msg (i + 1) (recordItemFailure s runId (msgOr m)) _
                hpend' hpre' hlt' hget1
            refine ⟨slUpdateOne item st m :: l2, s2,
              Event.notif (Notification.itemFailed runId item.name (msgOr m))
                :: evs, r2, ?_, hget, ?_, ?_, ?_, ?_, ?_, ?_⟩
            · rw [List.cons_append,
                runItems_cons_failed runId totalItems item rest st m
                  (pre' ++ ItemOutcome.exn msg :: post) i s hp hadd]
              simp [heq]
            · rw [hstat]
            · rw [hitems]
            · simp [hlen2]
            · simpa using hdrop
            · intro e he
              rcases List.mem_cons.1 he with h | h
              · subst h; rfl
              · exact hie e h
            · simp [helen]

/-- Whatever the item list and outcomes, the loop itself only emits per-item
notifications; in particular it never emits the resource-release event. -/
theorem runItems_events_are_item_events (runId : String) (totalItems : Nat) :
    ∀ (l : List SLItem) (outs : List ItemOutcome) (i : Nat) (s : Store),
    ∀ e ∈ (runItems runId totalItems l outs i s).2.2.1, isItemEvent e = true := by
  intro l
  induction l with
  | nil => intro outs i s e he; simp [runItems] at he
  | cons item rest ih =>
      intro outs i s e he
      by_cases hp : item.status = ProductStatus.PENDING
      · cases outs with
        | nil =>
            rw [show (runItems runId totalItems (item :: rest) [] i s).2.2.1 =
                ([] : List Event) from by simp [runItems, hp]] at he
            simp at he
        | cons o outs' =>
            rcases o with ⟨st, m⟩ | ⟨msg⟩
            · by_cases hadd : st = ProductStatus.ADDED
              · subst hadd
                rw [show (runItems runId totalItems (item :: rest)
                    (ItemOutcome.result ProductStatus.ADDED m :: outs')
                      i s).2.2.1 =
                    Event.notif (Notification.itemAdded runId item.name (i + 1)
                      totalItems) ::
                    (runItems runId totalItems rest outs' (i + 1)
                      (recordItemSuccess s runId)).2.2.1 from by
                    rw [runItems_cons_added runId totalItems item rest m outs'
                      i s hp]] at he
                rcases List.mem_cons.1 he with h | h
                · subst h; rfl
                · exact ih outs' (i + 1) (recordItemSuccess s runId) e h
              · rw [show (runItems runId totalItems (item :: rest)
                    (ItemOutcome.result st m :: outs') i s).2.2.1 =
                    Event.notif (Notification.itemFailed runId item.name
                      (msgOr m)) ::
                    (runItems runId totalItems rest outs' (i + 1)
                      (recordItemFailure s runId (msgOr m))).2.2.1 from by
                    rw [runItems_cons_failed runId totalItems item rest st m
                      outs' i s hp hadd]] at he
                rcases List.mem_cons.1 he with h | h
                · subst h; rfl
                · exact ih outs' (i + 1)
                    (recordItemFailure s runId (msgOr m)) e h
            · rw [show (runItems runId totalItems (item :: rest)
                  (ItemOutcome.exn msg :: outs') i s).2.2.1 =
                  ([] : List Event) from by
                  rw [runItems_cons_exn runId totalItems item rest msg outs'
                    i s hp]] at he
              simp at he
      · rw [show (runItems runId totalItems (item :: rest) outs i s).2.2.1 =
            (runItems runId totalItems rest outs.tail (i + 1) s).2.2.1 from by
            rw [runItems_cons_skip runId totalItems item rest outs i s hp]] at he
        exact ih outs.tail (i + 1) s e he

/-- On every exit path of `processShoppingList` (normal completion, per-item
failures, fatal abort) the browser resource is released exactly once. -/
theorem processShoppingList_close_once (runId : String) (items0 : List SLItem)
    (outs : List ItemOutcome) (s0 : Store) :
    ((processShoppingList runId items0 outs s0).2.2).count Event.close = 1 := by
  have hloop := runItems_events_are_item_events runId items0.length items0
    outs 0 s0
  have hzero :
      ((runItems runId items0.length items0 outs 0 s0).2.2.1).count
        Event.close = 0 := by
    rw [List.count_eq_zero]
    intro hc
    have := hloop Event.close hc
    simp [isItemEvent] at this
  unfold processShoppingList
  rcases hout : (runItems runId items0.length items0 outs 0 s0).2.2.2 with
    _ | msg <;>
    simp [hout, List.count_append, List.count_cons, hzero, List.count_eq_zero]

-- C1 --------------------------------------------------------------------------

/-- C1: for a run present in the store with zero counters and a list of N
pending items, whenever every automation call reports a result (failures
included — for a non-empty proper subset of the items or even for all of
them) and no exception escapes the per-item handling, the loop visits every
item, the run's final status is `cart_ready`, a completion notification
carrying the final success and total counts is sent, and afterwards
`successCount + failureCount = N`. -/
theorem itemLoop_partial_failure_tolerance
    (runId : String) (items0 : List SLItem) (outs : List ItemOutcome)
    (s0 : Store) (r0 : RunData)
    (hpend : ∀ it ∈ items0, it.status = ProductStatus.PENDING)
    (hlen : outs.length = items0.length)
    (hres : ∀ o ∈ outs, ∃ st m, o = ItemOutcome.result st m ∧
        st ≠ ProductStatus.PENDING)
    (hrun : getRun s0 runId = some r0)
    (hzero : r0.successCount = 0 ∧ r0.failureCount = 0) :
    ∃ s2 l2 evs r2,
      processShoppingList runId items0 outs s0 = (s2, l2, evs) ∧
      getRun s2 runId = some r2 ∧
      r2.status = RunState.cart_ready ∧
      l2.length = items0.length ∧
      (∀ it ∈ l2, it.status ≠ ProductStatus.PENDING) ∧
      Event.notif (Notification.cartReady runId r2.successCount
        items0.length) ∈ evs ∧
      r2.successCount + r2.failureCount = items0.length := by
  obtain ⟨l2, s2, evs, r2, heq, hget, hstat, hitems, hlen2, hnp, hie, helen,
    hsucc, hfail⟩ := runItems_results runId items0.length items0 outs 0 s0 r0
      hpend hlen hres hrun
  obtain ⟨-, hget2⟩ := getRun_updateRunStatus_found s2 runId r2
    RunState.cart_ready hget
  have hpend0 : (getSummary l2).pending = 0 := by
    simp only [getSummary]
    rw [List.countP_eq_zero]
    intro it hit
    simpa using hnp it hit
  have hpart := getSummary_partition l2
  have htot : (getSummary l2).total = items0.length := by
    simp [getSummary, hlen2]
  refine ⟨(updateRunStatus s2 runId RunState.cart_ready).1, l2,
    [Event.notif (Notification.runStarted runId items0.length)] ++ evs ++
      [Event.notif (Notification.cartReady runId (getSummary l2).added
        (getSummary l2).total), Event.close],
    { r2 with status := RunState.cart_ready }, ?_, hget2, rfl, hlen2, hnp,
    ?_, ?_⟩
  · simp [processShoppingList, heq]
  · have h1 : ({ r2 with status := RunState.cart_ready } : RunData).successCount
        = (getSummary l2).added := by
      show r2.successCount = (getSummary l2).added
      rw [hsucc, hzero.1, Nat.zero_add]
    rw [h1, ← htot]
    simp
  · show r2.successCount + r2.failureCount = items0.length
    rw [hsucc, hfail, hzero.1, hzero.2]
    omega

def c1Items : List SLItem :=
  [{ name := "milk", quantity := 1, status := ProductStatus.PENDING,
     notes := none },
   { name := "bread", quantity := 2, status := ProductStatus.PENDING,
     notes := none }]

def c1Outs : List ItemOutcome :=
  [ItemOutcome.result ProductStatus.ADDED none,
   ItemOutcome.result ProductStatus.OUT_OF_STOCK (some "out of stock")]

def c1Store : Store := [("run_t_x", freshRun "run_t_x" [] 0)]

theorem itemLoop_partial_failure_tolerance_witness :
    ∃ s2 l2 evs r2,
      processShoppingList "run_t_x" c1Items c1Outs c1Store = (s2, l2, evs) ∧
      getRun s2 "run_t_x" = some r2 ∧
      r2.status = RunState.cart_ready ∧
      l2.length = c1Items.length ∧
      (∀ it ∈ l2, it.status ≠ ProductStatus.PENDING) ∧
      Event.notif (Notification.cartReady "run_t_x" r2.successCount
        c1Items.length) ∈ evs ∧
      r2.successCount + r2.failureCount = c1Items.length :=
  itemLoop_partial_failure_tolerance "run_t_x" c1Items c1Outs c1Store
    (freshRun "run_t_x" [] 0)
    (by decide)
    (by decide)
    (by
      intro o ho
      simp [c1Outs] at ho
      rcases ho with rfl | rfl
      · exact ⟨ProductStatus.ADDED, none, rfl, by decide⟩
      · exact ⟨ProductStatus.OUT_OF_STOCK, some "out of stock", rfl, by decide⟩)
    (by decide)
    (by decide)

-- C6 --------------------------------------------------------------------------

/-- C6: when an exception escapes the per-item handling, the loop processes
no further items (the items after the failing position keep their pending
state and only the earlier items produced per-item events), the run moves
to `processing_failed`, an error notification is emitted, and the browser
resource is still released; moreover on every exit path — normal
completion, per-item failure, fatal abort — the release event occurs
exactly once in the trace. -/
theorem itemLoop_fatal_release
    (runId msg : String) (items0 : List SLItem) (pre post : List ItemOutcome)
    (s0 : Store) (r0 : RunData)
    (hpend : ∀ it ∈ items0, it.status = ProductStatus.PENDING)
    (hpre : ∀ o ∈ pre, ∃ st m, o = ItemOutcome.result st m)
    (hlt : pre.length < items0.length)
    (hrun : getRun s0 runId = some r0) :
    ∃ s2 l2 evs r2,
      processShoppingList runId items0 (pre ++ ItemOutcome.exn msg :: post) s0
        = (s2, l2, evs) ∧
      getRun s2 runId = some r2 ∧
      r2.status = RunState.processing_failed ∧
      l2.drop pre.length = items0.drop pre.length ∧
      evs.countP isItemEvent = pre.length ∧
      Event.notif (Notification.errorMsg runId ("Processing error: " ++ msg))
        ∈ evs ∧
      evs.count Event.close = 1 ∧
      ∀ (outs : List ItemOutcome) (s : Store),
        ((processShoppingList runId items0 outs s).2.2).count Event.close
          = 1 := by
  obtain ⟨l2, s2, evs, r2, heq, hget, hstat, hitems, hlen2, hdrop, hie,
    helen⟩ := runItems_exn runId items0.length pre items0 post msg 0 s0 r0
      hpend hpre hlt hrun
  obtain ⟨-, hget2⟩ := getRun_updateRunStatus_found s2 runId r2
    RunState.processing_failed hget
  have hitemcnt : evs.countP isItemEvent = evs.length :=
    List.countP_eq_length.mpr hie
  have hz : evs.count Event.close = 0 := by
    rw [List.count_eq_zero]
    intro hc
    have := hie _ hc
    simp [isItemEvent] at this
  refine ⟨(updateRunStatus s2 runId RunState.processing_failed).1, l2,
    [Event.notif (Notification.runStarted runId items0.length)] ++ evs ++
      [Event.notif (Notification.errorMsg runId ("Processing error: " ++ msg)),
       Event.close],
    { r2 with status := RunState.processing_failed }, ?_, hget2, rfl, hdrop,
    ?_, ?_, ?_, ?_⟩
  · simp [processShoppingList, heq]
  · simp [List.countP_append, List.countP_cons, isItemEvent, hitemcnt, helen]
  · simp
  · simp [List.count_append, List.count_cons, hz]
  · intro outs s
    exact processShoppingList_close_once runId items0 outs s

def c6Items : List SLItem :=
  [{ name := "eggs", quantity := 1, status := ProductStatus.PENDING,
     notes := none },
   { name := "butter", quantity := 1, status := ProductStatus.PENDING,
     notes := none }]

def c6Store : Store := [("run_u_y", freshRun "run_u_y" [] 3)]

theorem itemLoop_fatal_release_witness :
    ∃ s2 l2 evs r2,
      processShoppingList "run_u_y" c6Items
        ([ItemOutcome.result ProductStatus.ADDED none] ++
          ItemOutcome.exn "page crashed" :: []) c6Store = (s2, l2, evs) ∧
      getRun s2 "run_u_y" = some r2 ∧
      r2.status = RunState.processing_failed ∧
      l2.drop 1 = c6Items.drop 1 ∧
      evs.countP isItemEvent = 1 ∧
      Event.notif (Notification.errorMsg "run_u_y"
        ("Processing error: " ++ "page crashed")) ∈ evs ∧
      evs.count Event.close = 1 ∧
      ∀ (outs : List ItemOutcome) (s : Store),
        ((processShoppingList "run_u_y" c6Items outs s).2.2).count Event.close
          = 1 :=
  itemLoop_fatal_release "run_u_y" "page crashed" c6Items
    [ItemOutcome.result ProductStatus.ADDED none] []
    c6Store (freshRun "run_u_y" [] 3)
    (by decide)
    (by
      intro o ho
      simp at ho
      subst ho
      exact ⟨ProductStatus.ADDED, none, rfl⟩)
    (by decide)
    (by decide)

-- C2 --------------------------------------------------------------------------

def c2After : Store := (createRun [] [] "t0" "abcde" 5).1

/-- C2 counterexample: `createRun` applied to the empty item list does not
fail — it returns an id and persists a fresh record under that id, so the
claimed `ValidationError` with no persisted record does not happen. -/
theorem createRun_empty_persists :
    (createRun [] [] "t0" "abcde" 5).2 = "run_t0_abcde" ∧
    getRun c2After "run_t0_abcde" = some (freshRun "run_t0_abcde" [] 5) :=
  ⟨rfl, rfl⟩

/-- C2 (amended): `createRun` performs no validation of `items` at all — for
every item list, the empty list included, it persists a fresh `pending`
record under the generated id and returns that id; rejection of empty item
lists happens only in the HTTP layer before `createRun` is reached. -/
theorem createRun_no_validation (s : Store) (items : List ShoppingItem)
    (nowStr rand : String) (now : Nat) :
    (createRun s items nowStr rand now).2 = mkRunId nowStr rand ∧
    getRun (createRun s items nowStr rand now).1 (mkRunId nowStr rand) =
      some (freshRun (mkRunId nowStr rand) items now) :=
  ⟨rfl, lookupRun_objSet_self (mkRunId nowStr rand) _ s⟩

-- C4 --------------------------------------------------------------------------

/-- C4: on an id that is not a key of the store, `getRun` returns the `null`
sentinel, `updateRunStatus` and `updateRunSessionId` return `false`,
`recordItemSuccess` and `recordItemFailure` return silently, and in all
cases the store is left exactly as it was — no record is created. -/
theorem unknown_id_never_throws_never_creates (s : Store) (runId : String)
    (st : RunState) (sid reason : String)
    (h : ∀ p ∈ s, p.1 ≠ runId) :
    getRun s runId = none ∧
    updateRunStatus s runId st = (s, false) ∧
    updateRunSessionId s runId sid = (s, false) ∧
    recordItemSuccess s runId = s ∧
    recordItemFailure s runId reason = s := by
  have hnone : lookupRun s runId = none := lookupRun_none_of_no_key runId s h
  exact ⟨hnone,
    by simp [updateRunStatus, hnone],
    by simp [updateRunSessionId, hnone],
    by simp [recordItemSuccess, hnone],
    by simp [recordItemFailure, hnone]⟩

def c4Store : Store := [("run_a_b", freshRun "run_a_b" [] 7)]

theorem unknown_id_never_throws_never_creates_witness :
    getRun c4Store "run_zzz" = none ∧
    updateRunStatus c4Store "run_zzz" RunState.running = (c4Store, false) ∧
    updateRunSessionId c4Store "run_zzz" "sess" = (c4Store, false) ∧
    recordItemSuccess c4Store "run_zzz" = c4Store ∧
    recordItemFailure c4Store "run_zzz" "no stock" = c4Store :=
  unknown_id_never_throws_never_creates c4Store "run_zzz" RunState.running
    "sess" "no stock" (by decide)

-- C5 --------------------------------------------------------------------------

/-- C5: whether the backing file is absent, blank, or unparseable, `readState`
returns the empty collection (and, being total, throws nothing), and a
`createRun` issued on top of that read succeeds normally: it persists a
fresh record that is retrievable afterwards. -/
theorem corrupted_store_recovery (parse : String → Option Store)
    (fs : FileState)
    (h : fs = FileState.absent ∨
         (∃ d, fs = FileState.present d ∧ d.trim = "") ∨
         (∃ d, fs = FileState.present d ∧ parse d = none)) :
    readState parse fs = [] ∧
    ∀ (items : List ShoppingItem) (nowStr rand : String) (now : Nat),
      getRun (createRun (readState parse fs) items nowStr rand now).1
          (mkRunId nowStr rand) =
        some (freshRun (mkRunId nowStr rand) items now) := by
  have hempty : readState parse fs = [] := by
    rcases h with rfl | ⟨d, rfl, hd⟩ | ⟨d, rfl, hd⟩
    · rfl
    · simp [readState, hd]
    · by_cases ht : d.trim = "" <;> simp [readState, ht, hd]
  refine ⟨hempty, ?_⟩
  intro items nowStr rand now
  rw [hempty]
  exact lookupRun_objSet_self (mkRunId nowStr rand) _ []

theorem corrupted_store_recovery_witness :
    readState (fun _ => none) (FileState.present "not json") = [] ∧
    ∀ (items : List ShoppingItem) (nowStr rand : String) (now : Nat),
      getRun (createRun (readState (fun _ => none)
            (FileState.present "not json")) items nowStr rand now).1
          (mkRunId nowStr rand) =
        some (freshRun (mkRunId nowStr rand) items now) :=
  corrupted_store_recovery (fun _ => none) (FileState.present "not json")
    (Or.inr (Or.inr ⟨"not json", rfl, rfl⟩))

-- C7 --------------------------------------------------------------------------

/-- C7: for a run present in the store, `updateRunStatus` overwrites the
status with any requested value — regardless of the current status, terminal
states included, and with no legality check of the transition — and returns
`true`. -/
theorem updateStatus_unconditional (s : Store) (runId : String) (r : RunData)
    (st : RunState) (h : getRun s runId = some r) :
    (updateRunStatus s runId st).2 = true ∧
    getRun (updateRunStatus s runId st).1 runId =
      some { r with status := st } := by
  obtain ⟨heq, hget⟩ := getRun_updateRunStatus_found s runId r st h
  exact ⟨by rw [heq], hget⟩

def c7Run : RunData :=
  { freshRun "run_c_d" [] 9 with status := RunState.processing_failed }

def c7Store : Store := [("run_c_d", c7Run)]

theorem updateStatus_unconditional_witness :
    (updateRunStatus c7Store "run_c_d" RunState.checkout_started).2 = true ∧
    getRun (updateRunStatus c7Store "run_c_d" RunState.checkout_started).1
        "run_c_d" =
      some { c7Run with status := RunState.checkout_started } :=
  updateStatus_unconditional c7Store "run_c_d" c7Run
    RunState.checkout_started (by decide)

-- C3 --------------------------------------------------------------------------

/-- A lifecycle operation applied to one run id (the mutating operations of
src/src/run_manager.ts other than `createRun`). -/
inductive LifecycleOp where
  | updateStatus (status : RunState)
  | updateSession (sessionId : String)
  | recordSuccess
  | recordFailure (reason : String)
deriving DecidableEq

def applyOp (s : Store) (runId : String) : LifecycleOp → Store
  | LifecycleOp.updateStatus st => (updateRunStatus s runId st).1
  | LifecycleOp.updateSession sid => (updateRunSessionId s runId sid).1
  | LifecycleOp.recordSuccess => recordItemSuccess s runId
  | LifecycleOp.recordFailure reason => recordItemFailure s runId reason

def applyOps (s : Store) (runId : String) : List LifecycleOp → Store
  | [] => s
  | op :: rest => applyOps (applyOp s runId op) runId rest

def isRecordOp : LifecycleOp → Bool
  | LifecycleOp.recordSuccess => true
  | LifecycleOp.recordFailure _ => true
  | _ => false

/-- Number of counter-incrementing operations in a sequence. -/
def countRecordOps (ops : List LifecycleOp) : Nat :=
  ops.countP isRecordOp

theorem applyOps_append (runId : String) :
    ∀ (a b : List LifecycleOp) (s : Store),
    applyOps s runId (a ++ b) = applyOps (applyOps s runId a) runId b := by
  intro a
  induction a with
  | nil => intro b s; rfl
  | cons op rest ih => intro b s; exact ih b (applyOp s runId op)

/-- Running any sequence of lifecycle operations on a present run keeps the
run present, preserves its item snapshot, never decreases either counter,
and raises the counter sum by exactly the number of record operations. -/
theorem applyOps_spec (runId : String) :
    ∀ (ops : List LifecycleOp) (s : Store) (r : RunData),
    getRun s runId = some r →
    ∃ r2, getRun (applyOps s runId ops) runId = some r2 ∧
      r2.items = r.items ∧
      r.successCount ≤ r2.successCount ∧
      r.failureCount ≤ r2.failureCount ∧
      r2.successCount + r2.failureCount =
        r.successCount + r.failureCount + countRecordOps ops := by
  intro ops
  induction ops with
  | nil =>
      intro s r h
      exact ⟨r, h, rfl, le_refl _, le_refl _, by simp [countRecordOps]⟩
  | cons op rest ih =>
      intro s r h
      cases op with
      | updateStatus st =>
          obtain ⟨-, h1⟩ := getRun_updateRunStatus_found s runId r st h
          obtain ⟨r2, hg, hi, hs, hf, hsum⟩ := ih _ _ h1
          dsimp only at hi hs hf hsum
          refine ⟨r2, hg, hi, hs, hf, ?_⟩
          simp [countRecordOps, List.countP_cons, isRecordOp] at hsum ⊢
          omega
      | updateSession sid =>
          obtain ⟨-, h1⟩ := getRun_updateRunSessionId_found s runId sid r h
          obtain ⟨r2, hg, hi, hs, hf, hsum⟩ := ih _ _ h1
          dsimp only at hi hs hf hsum
          refine ⟨r2, hg, hi, hs, hf, ?_⟩
          simp [countRecordOps, List.countP_cons, isRecordOp] at hsum ⊢
          omega
      | recordSuccess =>
          obtain ⟨-, h1⟩ := getRun_recordItemSuccess_found s runId r h
          obtain ⟨r2, hg, hi, hs, hf, hsum⟩ := ih _ _ h1
          dsimp only at hi hs hf hsum
          refine ⟨r2, hg, hi, by omega, hf, ?_⟩
          simp [countRecordOps, List.countP_cons, isRecordOp] at hsum ⊢
          omega
      | recordFailure reason =>
          obtain ⟨-, h1⟩ := getRun_recordItemFailure_found s runId reason r h
          obtain ⟨r2, hg, hi, hs, hf, hsum⟩ := ih _ _ h1
          dsimp only at hi hs hf hsum
          refine ⟨r2, hg, hi, hs, by omega, ?_⟩
          simp [countRecordOps, List.countP_cons, isRecordOp] at hsum ⊢
          omega

def c3Item : ShoppingItem := { name := "milk", quantity := 1, url := none }

def c3Twice : Store :=
  recordItemSuccess
    (recordItemSuccess (createRun [] [c3Item] "t1" "ccccc" 0).1 "run_t1_ccccc")
    "run_t1_ccccc"

/-- C3 counterexample: two `recordItemSuccess` calls on a one-item run push
`successCount + failureCount` to 2 while `items.length` is 1 — the sum
bound is not maintained for arbitrary operation sequences, because the
record operations perform no bound check. -/
theorem counters_can_exceed_items :
    (getRun c3Twice "run_t1_ccccc").map
      (fun r => decide (r.items.length < r.successCount + r.failureCount)) =
      some true := by decide

/-- C3 (amended): across any operation sequence the counters are
non-negative and non-decreasing (between any earlier point `pre` and any
later point `pre ++ suf`), the item snapshot is preserved, and — provided
the sequence performs at most `items.length - (successCount + failureCount)`
record operations, as the item-processing loop does with its one record call
per item — the counter sum stays bounded by `items.length` at every point. -/
theorem counters_monotone_and_bounded (s : Store) (runId : String)
    (r : RunData) (pre suf : List LifecycleOp)
    (hrun : getRun s runId = some r)
    (hbound : r.successCount + r.failureCount + countRecordOps (pre ++ suf)
      ≤ r.items.length) :
    ∃ r1 r2,
      getRun (applyOps s runId pre) runId = some r1 ∧
      getRun (applyOps s runId (pre ++ suf)) runId = some r2 ∧
      r1.items = r.items ∧
      r2.items = r.items ∧
      r1.successCount ≤ r2.successCount ∧
      r1.failureCount ≤ r2.failureCount ∧
      r1.successCount + r1.failureCount ≤ r.items.length ∧
      r2.successCount + r2.failureCount ≤ r.items.length := by
  obtain ⟨r1, hg1, hi1, hs1, hf1, hsum1⟩ := applyOps_spec runId pre s r hrun
  obtain ⟨r2, hg2, hi2, hs2, hf2, hsum2⟩ := applyOps_spec runId suf _ r1 hg1
  rw [← applyOps_append runId pre suf s] at hg2
  have hcnt : countRecordOps (pre ++ suf) =
      countRecordOps pre + countRecordOps suf := by
    simp [countRecordOps, List.countP_append]
  refine ⟨r1, r2, hg1, hg2, hi1, hi2.trans hi1, hs2, hf2, ?_, ?_⟩
  · rw [← hi1]; rw [← hi1] at hbound; omega
  · rw [← hi1]; rw [← hi1] at hbound; omega

def c3wStore : Store := (createRun [] [c3Item, c3Item] "t2" "ddddd" 0).1

theorem counters_monotone_and_bounded_witness :
    ∃ r1 r2,
      getRun (applyOps c3wStore "run_t2_ddddd" [LifecycleOp.recordSuccess])
        "run_t2_ddddd" = some r1 ∧
      getRun (applyOps c3wStore "run_t2_ddddd"
        ([LifecycleOp.recordSuccess] ++ [LifecycleOp.recordFailure "oos"]))
        "run_t2_ddddd" = some r2 ∧
      r1.items = (freshRun "run_t2_ddddd" [c3Item, c3Item] 0).items ∧
      r2.items = (freshRun "run_t2_ddddd" [c3Item, c3Item] 0).items ∧
      r1.successCount ≤ r2.successCount ∧
      r1.failureCount ≤ r2.failureCount ∧
      r1.successCount + r1.failureCount ≤
        (freshRun "run_t2_ddddd" [c3Item, c3Item] 0).items.length ∧
      r2.successCount + r2.failureCount ≤
        (freshRun "run_t2_ddddd" [c3Item, c3Item] 0).items.length :=
  counters_monotone_and_bounded c3wStore "run_t2_ddddd"
    (freshRun "run_t2_ddddd" [c3Item, c3Item] 0)
    [LifecycleOp.recordSuccess] [LifecycleOp.recordFailure "oos"]
    (by decide) (by decide)

-- C9 --------------------------------------------------------------------------

/-- The inputs of one `createRun` call: the item list plus the two
nondeterministic draws (clock string and random suffix) and the timestamp. -/
structure CreateCall where
  items : List ShoppingItem
  nowStr : String
  rand : String
  now : Nat
deriving DecidableEq

def callId (c : CreateCall) : String := mkRunId c.nowStr c.rand

/-- A sequence of `createRun` calls against the same store, collecting the
returned ids. -/
def createRuns (s : Store) : List CreateCall → Store × List String
  | [] => (s, [])
  | c :: rest =>
      let r := createRun s c.items c.nowStr c.rand c.now
      let res := createRuns r.1 rest
      (res.1, r.2 :: res.2)

theorem createRuns_cons (s : Store) (c : CreateCall) (rest : List CreateCall) :
    createRuns s (c :: rest) =
      ((createRuns (objSet s (callId c) (freshRun (callId c) c.items c.now))
          rest).1,
       callId c ::
         (createRuns (objSet s (callId c) (freshRun (callId c) c.items c.now))
            rest).2) := rfl

theorem getRun_createRuns_frame (k : String) :
    ∀ (calls : List CreateCall) (s : Store),
    (∀ c ∈ calls, callId c ≠ k) →
    getRun (createRuns s calls).1 k = getRun s k := by
  intro calls
  induction calls with
  | nil => intro s _; rfl
  | cons c rest ih =>
      intro s h
      have hc : callId c ≠ k := h c (List.mem_cons_self _ _)
      have hrest : ∀ c' ∈ rest, callId c' ≠ k :=
        fun c' hc' => h c' (List.mem_cons_of_mem _ hc')
      rw [createRuns_cons]
      rw [ih _ hrest]
      exact lookupRun_objSet_other (callId c) k _ (Ne.symm hc) s

def c9CallA : CreateCall :=
  { items := [{ name := "milk", quantity := 1, url := none }],
    nowStr := "t", rand := "vwxyz", now := 0 }

def c9CallB : CreateCall :=
  { items := [{ name := "bread", quantity := 2, url := none }],
    nowStr := "t", rand := "vwxyz", now := 1 }

/-- C9 counterexample: two `createRun` calls that happen to draw the same
clock string and random suffix return the same id, and the second call
overwrites the first record — the ids are not pairwise distinct and a
created record does not survive. -/
theorem createRun_id_collision_overwrites :
    (createRuns [] [c9CallA, c9CallB]).2 = ["run_t_vwxyz", "run_t_vwxyz"] ∧
    getRun (createRuns [] [c9CallA, c9CallB]).1 "run_t_vwxyz" =
      some (freshRun "run_t_vwxyz" c9CallB.items 1) :=
  ⟨rfl, rfl⟩

/-- C9 (amended): provided the generated id strings are pairwise distinct
across the calls (distinct clock / random draws — the id scheme is
collision-resistant, not collision-free), the returned ids are pairwise
distinct and every record created by the sequence is still present,
unmodified, in the final store: no later `createRun` overwrites it. -/
theorem createRun_distinct_ids_no_overwrite :
    ∀ (calls : List CreateCall) (s : Store),
    (calls.map callId).Pairwise (· ≠ ·) →
    (createRuns s calls).2 = calls.map callId ∧
    ((createRuns s calls).2).Pairwise (· ≠ ·) ∧
    ∀ c ∈ calls,
      getRun (createRuns s calls).1 (callId c) =
        some (freshRun (callId c) c.items c.now) := by
  intro calls
  induction calls with
  | nil => intro s _; exact ⟨rfl, List.Pairwise.nil, by simp⟩
  | cons c rest ih =>
      intro s hdist
      rw [List.map_cons, List.pairwise_cons] at hdist
      obtain ⟨hne, hdr⟩ := hdist
      obtain ⟨hids, hpw, hrecs⟩ :=
        ih (objSet s (callId c) (freshRun (callId c) c.items c.now)) hdr
      rw [createRuns_cons]
      refine ⟨?_, ?_, ?_⟩
      · simp [hids]
      · rw [hids]
        exact List.pairwise_cons.2 ⟨hne, hdr⟩
      · intro c' hc'
        rcases List.mem_cons.1 hc' with rfl | hmem
        · have hframe : ∀ c'' ∈ rest, callId c'' ≠ callId c' := by
            intro c'' hc''
            intro heq
            exact hne (callId c'') (List.mem_map_of_mem callId hc'') heq.symm
          show getRun (createRuns
            (objSet s (callId c') (freshRun (callId c') c'.items c'.now))
              rest).1 (callId c') = _
          rw [getRun_createRuns_frame (callId c') rest _ hframe]
          exact lookupRun_objSet_self (callId c') _ s
        · exact hrecs c' hmem

def c9wCalls : List CreateCall :=
  [{ items := [{ name := "milk", quantity := 1, url := none }],
     nowStr := "t", rand := "aaaaa", now := 0 },
   { items := [{ name := "bread", quantity := 2, url := none }],
     nowStr := "t", rand := "bbbbb", now := 1 }]

theorem createRun_distinct_ids_no_overwrite_witness :
    (createRuns [] c9wCalls).2 = c9wCalls.map callId ∧
    ((createRuns [] c9wCalls).2).Pairwise (· ≠ ·) ∧
    ∀ c ∈ c9wCalls,
      getRun (createRuns [] c9wCalls).1 (callId c) =
        some (freshRun (callId c) c.items c.now) :=
  createRun_distinct_ids_no_overwrite c9wCalls [] (by decide)

-- C10 -------------------------------------------------------------------------

/-- C10: each mutating lifecycle operation on a present run changes only its
own field(s) of that record — the `with`-updates below keep `id`, `items`,
`timestamp` and every other field — and leaves every other record of the
store untouched. -/
theorem lifecycle_frame (s : Store) (runId : String) (r : RunData)
    (st : RunState) (sid reason : String)
    (h : getRun s runId = some r) :
    (getRun (updateRunStatus s runId st).1 runId =
        some { r with status := st } ∧
      ∀ other, other ≠ runId →
        getRun (updateRunStatus s runId st).1 other = getRun s other) ∧
    (getRun (recordItemSuccess s runId) runId =
        some { r with successCount := r.successCount + 1 } ∧
      ∀ other, other ≠ runId →
        getRun (recordItemSuccess s runId) other = getRun s other) ∧
    (getRun (recordItemFailure s runId reason) runId =
        some { r with
               failureCount := r.failureCount + 1
               failureReasons :=
                 if reason = "" then r.failureReasons
                 else r.failureReasons ++ [reason] } ∧
      ∀ other, other ≠ runId →
        getRun (recordItemFailure s runId reason) other = getRun s other) ∧
    (getRun (updateRunSessionId s runId sid).1 runId =
        some { r with sessionId := some sid } ∧
      ∀ other, other ≠ runId →
        getRun (updateRunSessionId s runId sid).1 other = getRun s other) := by
  obtain ⟨hequ, hgu⟩ := getRun_updateRunStatus_found s runId r st h
  obtain ⟨heqs, hgs⟩ := getRun_recordItemSuccess_found s runId r h
  obtain ⟨heqf, hgf⟩ := getRun_recordItemFailure_found s runId reason r h
  obtain ⟨heqd, hgd⟩ := getRun_updateRunSessionId_found s runId sid r h
  refine ⟨⟨hgu, ?_⟩, ⟨hgs, ?_⟩, ⟨hgf, ?_⟩, ⟨hgd, ?_⟩⟩
  · intro other hne
    rw [hequ]
    exact lookupRun_setRun_other runId other _ hne s
  · intro other hne
    rw [heqs]
    exact lookupRun_setRun_other runId other _ hne s
  · intro other hne
    rw [heqf]
    exact lookupRun_setRun_other runId other _ hne s
  · intro other hne
    rw [heqd]
    exact lookupRun_setRun_other runId other _ hne s

def c10Run : RunData := freshRun "run_e_f" [c3Item] 11

def c10Store : Store :=
  [("run_e_f", c10Run), ("run_g_h", freshRun "run_g_h" [] 12)]

theorem lifecycle_frame_witness :
    (getRun (updateRunStatus c10Store "run_e_f" RunState.running).1 "run_e_f" =
        some { c10Run with status := RunState.running } ∧
      ∀ other, other ≠ "run_e_f" →
        getRun (updateRunStatus c10Store "run_e_f" RunState.running).1 other =
          getRun c10Store other) ∧
    (getRun (recordItemSuccess c10Store "run_e_f") "run_e_f" =
        some { c10Run with successCount := c10Run.successCount + 1 } ∧
      ∀ other, other ≠ "run_e_f" →
        getRun (recordItemSuccess c10Store "run_e_f") other =
          getRun c10Store other) ∧
    (getRun (recordItemFailure c10Store "run_e_f" "oops") "run_e_f" =
        some { c10Run with
               failureCount := c10Run.failureCount + 1
               failureReasons :=
                 if "oops" = "" then c10Run.failureReasons
                 else c10Run.failureReasons ++ ["oops"] } ∧
      ∀ other, other ≠ "run_e_f" →
        getRun (recordItemFailure c10Store "run_e_f" "oops") other =
          getRun c10Store other) ∧
    (getRun (updateRunSessionId c10Store "run_e_f" "sess1").1 "run_e_f" =
        some { c10Run with sessionId := some "sess1" } ∧
      ∀ other, other ≠ "run_e_f" →
        getRun (updateRunSessionId c10Store "run_e_f" "sess1").1 other =
          getRun c10Store other) :=
  lifecycle_frame c10Store "run_e_f" c10Run RunState.running "sess1" "oops"
    (by decide)

-- C8 --------------------------------------------------------------------------

/-- The automation steps of `processCheckout` (src/unnamed/part_005), in
source order.  The url checks are the `page.evaluate` probes between the
checkout-button attempts; `checkOnCheckoutPage` is the final probe deciding
whether the payment phase runs. -/
inductive CkStep where
  | gotoCart
  | selectShipping1
  | selectShipping2
  | clickCheckout1
  | urlCheck1
  | clickCheckout2
  | urlCheck2
  | clickCheckout3
  | checkOnCheckoutPage
  | selectPayment
  | fillCardNumber
  | fillExpiration
  | fillCvv
  | fillName
  | uncheckSaveCard
  | uncheckDefaultCard
  | saveAndContinue
  | placeOrder
deriving DecidableEq

/-- The external web surface during one checkout attempt: whether each step
throws, and the page-location probes that drive the retry conditionals. -/
structure CkEnv where
  act : CkStep → Option String
  stillOnCart1 : Bool
  stillOnCart2 : Bool
  onCheckoutPage : Bool

/-- The ordered list of steps the try-block of `processCheckout` attempts
against a given surface: the cart/shipping/checkout-button phase with its
conditional retries, the checkout-page probe, and — only when the probe
succeeds — the payment phase, with `placeOrder` only under the
`completeOrder` flag. -/
def checkoutScript (env : CkEnv) (completeOrder : Bool) : List CkStep :=
  [CkStep.gotoCart, CkStep.selectShipping1, CkStep.selectShipping2,
   CkStep.clickCheckout1, CkStep.urlCheck1]
  ++ (if env.stillOnCart1 then [CkStep.clickCheckout2] else [])
  ++ [CkStep.urlCheck2]
  ++ (if env.stillOnCart2 then [CkStep.clickCheckout3] else [])
  ++ [CkStep.checkOnCheckoutPage]
  ++ (if env.onCheckoutPage then
        [CkStep.selectPayment, CkStep.fillCardNumber, CkStep.fillExpiration,
         CkStep.fillCvv, CkStep.fillName, CkStep.uncheckSaveCard,
         CkStep.uncheckDefaultCard, CkStep.saveAndContinue]
        ++ (if completeOrder then [CkStep.placeOrder] else [])
      else [])

/-- Sequential execution of steps: stops at the first step that throws.
Returns the executed steps and the thrown message, if any. -/
def runSteps (env : CkEnv) : List CkStep → List CkStep × Option String
  | [] => ([], none)
  | st :: rest =>
      match env.act st with
      | some msg => ([st], some msg)
      | none =>
          let res := runSteps env rest
          (st :: res.1, res.2)

/-- `processCheckout` of src/unnamed/part_005: run the try-block steps; on a
throw, the catch sets `checkout_failed` and sends the failure notification
with the error detail; when everything ran and the checkout page was
reached, set `checkout_complete` and send the success notification (the
`completeOrder` flag only selects which success message); when the checkout
page was never reached, return `false` with no status change and no
notification from this function.  Returns (store, events, executed steps,
returned boolean). -/
def processCheckout (runId : String) (env : CkEnv) (completeOrder : Bool)
    (s : Store) : Store × List Event × List CkStep × Bool :=
  let res := runSteps env (checkoutScript env completeOrder)
  match res.2 with
  | some msg =>
      ((updateRunStatus s runId RunState.checkout_failed).1,
       [Event.notif (Notification.checkoutFailed runId msg)], res.1, false)
  | none =>
      if env.onCheckoutPage then
        if completeOrder then
          ((updateRunStatus s runId RunState.checkout_complete).1,
           [Event.notif (Notification.checkoutComplete runId)], res.1, true)
        else
          ((updateRunStatus s runId RunState.checkout_complete).1,
           [Event.notif (Notification.slackMessage
              ("[Run " ++ runId ++
                "] Checkout simulation complete (order not placed)."))],
           res.1, true)
      else
        (s, [], res.1, false)

theorem runSteps_ok (env : CkEnv) :
    ∀ steps : List CkStep, (∀ st ∈ steps, env.act st = none) →
      runSteps env steps = (steps, none) := by
  intro steps
  induction steps with
  | nil => intro _; rfl
  | cons st rest ih =>
      intro h
      have hst : env.act st = none := h st (List.mem_cons_self _ _)
      have hrest := ih fun st' hst' => h st' (List.mem_cons_of_mem _ hst')
      simp [runSteps, hst, hrest]

theorem runSteps_throws (env : CkEnv) :
    ∀ (pre : List CkStep) (st : CkStep) (post : List CkStep) (msg : String),
    (∀ st' ∈ pre, env.act st' = none) → env.act st = some msg →
    runSteps env (pre ++ st :: post) = (pre ++ [st], some msg) := by
  intro pre
  induction pre with
  | nil =>
      intro st post msg _ hst
      simp [runSteps, hst]
  | cons p pre' ih =>
      intro st post msg hpre hst
      have hp : env.act p = none := hpre p (List.mem_cons_self _ _)
      have hrest := ih st post msg
        (fun st' hst' => hpre st' (List.mem_cons_of_mem _ hst')) hst
      simp [runSteps, hp, hrest]

/-- C8: checkout is all-or-nothing per attempt.  When every attempted step
completes without throwing and the checkout page was reached, the run is set
to `checkout_complete` and a success notification is sent (the
`completeOrder` flag only selects the message).  When any step throws, no
further checkout steps run — the executed sequence stops at the throwing
step, with no retry of individual steps — the run is set to
`checkout_failed`, and a failure notification carrying the error detail is
sent. -/
theorem checkout_all_or_nothing (runId : String) (env : CkEnv)
    (completeOrder : Bool) (s : Store) (r : RunData)
    (h : getRun s runId = some r) :
    ((∀ st ∈ checkoutScript env completeOrder, env.act st = none) →
      env.onCheckoutPage = true →
      processCheckout runId env completeOrder s =
        ((updateRunStatus s runId RunState.checkout_complete).1,
         [if completeOrder then
            Event.notif (Notification.checkoutComplete runId)
          else
            Event.notif (Notification.slackMessage
              ("[Run " ++ runId ++
                "] Checkout simulation complete (order not placed)."))],
         checkoutScript env completeOrder, true) ∧
      getRun (processCheckout runId env completeOrder s).1 runId =
        some { r with status := RunState.checkout_complete }) ∧
    (∀ (pre : List CkStep) (st : CkStep) (post : List CkStep) (msg : String),
      checkoutScript env completeOrder = pre ++ st :: post →
      (∀ st' ∈ pre, env.act st' = none) →
      env.act st = some msg →
      processCheckout runId env completeOrder s =
        ((updateRunStatus s runId RunState.checkout_failed).1,
         [Event.notif (Notification.checkoutFailed runId msg)],
         pre ++ [st], false) ∧
      getRun (processCheckout runId env completeOrder s).1 runId =
        some { r with status := RunState.checkout_failed }) := by
  constructor
  · intro hok hpage
    have hrs := runSteps_ok env (checkoutScript env completeOrder) hok
    obtain ⟨-, hg⟩ := getRun_updateRunStatus_found s runId r
      RunState.checkout_complete h
    constructor
    · cases completeOrder <;> simp [processCheckout, hrs, hpage]
    · cases completeOrder <;> simp [processCheckout, hrs, hpage] <;> exact hg
  · intro pre st post msg hscript hpre hst
    have hrs := runSteps_throws env pre st post msg hpre hst
    obtain ⟨-, hg⟩ := getRun_updateRunStatus_found s runId r
      RunState.checkout_failed h
    constructor
    · simp [processCheckout, hscript, hrs]
    · simp [processCheckout, hscript, hrs]
      exact hg

def c8Env : CkEnv :=
  { act := fun _ => none
    stillOnCart1 := false
    stillOnCart2 := false
    onCheckoutPage := true }

def c8Run : RunData :=
  { freshRun "run_i_j" [] 2 with status := RunState.checkout_started }

def c8Store : Store := [("run_i_j", c8Run)]

theorem checkout_all_or_nothing_witness :
    processCheckout "run_i_j" c8Env true c8Store =
      ((updateRunStatus c8Store "run_i_j" RunState.checkout_complete).1,
       [Event.notif (Notification.checkoutComplete "run_i_j")],
       checkoutScript c8Env true, true) ∧
    getRun (processCheckout "run_i_j" c8Env true c8Store).1 "run_i_j" =
      some { c8Run with status := RunState.checkout_complete } := by
  have hmain :=
    (checkout_all_or_nothing "run_i_j" c8Env true c8Store c8Run (by decide)).1
      (fun st _ => rfl) rfl
  simpa using hmain
